import Mathlib

/-!
Shallow embedding of the query-dispatch and template-substitution core of
`dshw` (a CLI wrapper over the `sysinfo` crate), from `src/app.rs`,
`src/cli.rs`, `src/cmd.rs` and `src/query.rs`.

Modelling conventions:
* The provider (`sysinfo`) is a black-box snapshot: `AppState` carries one
  point-in-time reading of every subsystem plus two counters
  (`cpu_refreshes`, `mem_refreshes`) that record the provider refresh calls
  (`System::refresh_cpu`, `System::refresh_memory`) issued so far; refreshes
  do not change the snapshot values, they only bump the counters, so the
  side-effect trace of the Rust code is explicit in the final state.
* Floating-point provider readings that the code renders with
  `format!("{:.2}", v)` (CPU usage percentages, load averages, temperatures)
  are carried in the snapshot as their already-rendered 2-decimal strings;
  the code does no arithmetic on them, it only forwards the rendering.
* Byte-valued `u64` metrics are `Nat`; the `DataValue::from_bytes(_, unit)`
  / `value_str` pipeline is modelled at its `Bytes` instantiation (the unit
  `app.rs` constructs the commands with), where `from_bytes` is the identity
  and `value_str` renders the integer in decimal (the `u64 -> f64 -> String`
  round trip in the source is lossless below `2^53`).
* Rust panics are explicit `Err` values: `subOverflow` for the checked
  `u64` subtraction in `DriveCommand::exec`, `unwrapFailed` for
  `.first().unwrap()` in `create_fmt_ctx` and the `.unwrap()` in
  `format_string`, `unreachableArm` for the `unreachable!()` arms of the
  `Command::exec` implementations.
-/

/-- Snapshot of the `sysinfo::System` readings used by `OsCommand`,
`MemoryCommand` and `SwapCommand`. `Option` fields are the readings the
crate reports as possibly unavailable (`System::name()` etc.); `None`
models an unavailable reading. -/
structure SysInfo where
  boot_time : Nat
  load_avg_one : String
  load_avg_five : String
  load_avg_fifteen : String
  name : Option String
  kernel_version : Option String
  os_version : Option String
  long_os_version : Option String
  distribution_id : String
  host_name : Option String
  physical_core_count : Option Nat
  global_cpu_usage : String
  cpu_arch : Option String
  used_memory : Nat
  total_memory : Nat
  available_memory : Nat
  free_memory : Nat
  used_swap : Nat
  total_swap : Nat
  free_swap : Nat
deriving DecidableEq, Repr

/-- One entry of `sys.cpus()`: the data `CpuCommand` reads. -/
structure CpuInfo where
  name : String
  cpu_usage : String
  frequency : Nat
  brand : String
  vendor_id : String
deriving DecidableEq, Repr

/-- One entry of `Disks::list()`: the data `DriveCommand` reads. -/
structure DriveInfo where
  name : String
  file_system : String
  is_removable : Bool
  kind : String
  mount_point : String
  total_space : Nat
  available_space : Nat
deriving DecidableEq, Repr

/-- One entry of `Components`: the data `SensorCommand` reads.
`critical` is the 2-decimal rendering of `Component::critical()` when the
sensor defines a critical threshold, `none` otherwise. -/
structure SensorInfo where
  label : String
  critical : Option String
  max : String
  temperature : String
deriving DecidableEq, Repr

/-- One entry of `Networks`: the data `NetworkCommand` reads. -/
structure NetworkInfo where
  name : String
  mac_address : String
  total_errors_on_received : Nat
  total_errors_on_transmitted : Nat
  total_received : Nat
  total_transmitted : Nat
  total_packets_received : Nat
  total_packets_transmitted : Nat
deriving DecidableEq, Repr

/-- The `Application` state (`app.rs`): the `System` snapshot, the lazily
initialised entity lists, and the explicit trace of provider refresh calls.
`cpu_refreshes` counts individual `sys.refresh_cpu()` calls (the two-phase
`refresh_cpus` performs two of them), `mem_refreshes` counts
`sys.refresh_memory()` calls. -/
structure AppState where
  sys : SysInfo
  cpus : List CpuInfo
  drives : List DriveInfo
  sensors : List SensorInfo
  networks : List NetworkInfo
  cpu_refreshes : Nat := 0
  mem_refreshes : Nat := 0
deriving DecidableEq, Repr

/-- OsQuery from `query.rs`. -/
inductive OsQuery where
  | BootTime | LoadAverage1m | LoadAverage5m | LoadAverage15m
  | Name | KernelVersion | Version | LongVersion | ReleaseId | HostName
  | PhysicalCoreCount | TotalCpuUsage | CpuArch
deriving DecidableEq, Repr

/-- CpuQuery from `query.rs`. -/
inductive CpuQuery where
  | Usage | Frequency | Brand | VendorId
deriving DecidableEq, Repr

/-- MemoryQuery from `query.rs`. -/
inductive MemoryQuery where
  | Usage | Total | Available | Free
deriving DecidableEq, Repr

/-- SwapQuery from `query.rs`. -/
inductive SwapQuery where
  | Usage | Total | Available
deriving DecidableEq, Repr

/-- DriveQuery from `query.rs`. -/
inductive DriveQuery where
  | Usage | Fs | IsRemovable | Kind | MountPoint | Total | Available
deriving DecidableEq, Repr

/-- SensorQuery from `query.rs`. -/
inductive SensorQuery where
  | CriticalTemp | MaxTemp | Temperature
deriving DecidableEq, Repr

/-- NetworkQuery from `query.rs`. -/
inductive NetworkQuery where
  | MacAddress | TotalIncomingErrors | TotalOutcomingErrors
  | TotalReceivedData | TotalTransmittedData
  | TotalReceivedPackets | TotalTransmittedPackets
deriving DecidableEq, Repr

/-- Query from `query.rs`: a resolved (category, field) pair, plus the
`Query::None` marker used by `CliCommand::exec` when no fields were given. -/
inductive Query where
  | None
  | Os (q : OsQuery)
  | Cpu (q : CpuQuery)
  | Memory (q : MemoryQuery)
  | Swap (q : SwapQuery)
  | Drive (q : DriveQuery)
  | Sensor (q : SensorQuery)
  | Network (q : NetworkQuery)
deriving DecidableEq, Repr

/-- CliCommand from `cli.rs` (the clap subcommand, with its parsed field
list and, for entity-scoped categories, the entity name). -/
inductive CliCommand where
  | Os (queries : List OsQuery)
  | Cpu (name : String) (queries : List CpuQuery)
  | Memory (queries : List MemoryQuery)
  | Swap (queries : List SwapQuery)
  | Drive (name : String) (queries : List DriveQuery)
  | Sensor (name : String) (queries : List SensorQuery)
  | Network (name : String) (queries : List NetworkQuery)
  | ListSensors
  | ListCpus
  | ListNetworks
deriving DecidableEq, Repr

/-- Lowercase an ASCII letter, mirroring `u8::to_ascii_lowercase`. -/
def asciiLowerChar (c : Char) : Char :=
  if 'A' ≤ c ∧ c ≤ 'Z' then Char.ofNat (c.toNat + 32) else c

/-- ASCII case folding of a string; `eq_ignore_ascii_case a b` in Rust is
`asciiLower a = asciiLower b`. -/
def asciiLower (s : String) : String :=
  String.mk (s.data.map asciiLowerChar)

/-- Generic model of clap's derived `ValueEnum::from_str(s, true)`:
look the token up, ASCII-case-insensitively, in the list of the enum's
possible-value names (all of which are lowercase kebab-case, so comparing
`asciiLower s` against the stored name is exactly
`s.eq_ignore_ascii_case(name)`). -/
def variantFromStr {α : Type} (variants : List (String × α)) (s : String) : Option α :=
  (variants.find? (fun v => asciiLower s == v.1)).map (·.2)

/-- Kebab-case value names clap derives for `OsQuery`. -/
def OsQuery.variants : List (String × OsQuery) :=
  [("boot-time", .BootTime), ("load-average1m", .LoadAverage1m),
   ("load-average5m", .LoadAverage5m), ("load-average15m", .LoadAverage15m),
   ("name", .Name), ("kernel-version", .KernelVersion), ("version", .Version),
   ("long-version", .LongVersion), ("release-id", .ReleaseId),
   ("host-name", .HostName), ("physical-core-count", .PhysicalCoreCount),
   ("total-cpu-usage", .TotalCpuUsage), ("cpu-arch", .CpuArch)]

/-- Kebab-case value names clap derives for `CpuQuery`. -/
def CpuQuery.variants : List (String × CpuQuery) :=
  [("usage", .Usage), ("frequency", .Frequency), ("brand", .Brand),
   ("vendor-id", .VendorId)]

/-- Kebab-case value names clap derives for `MemoryQuery`. -/
def MemoryQuery.variants : List (String × MemoryQuery) :=
  [("usage", .Usage), ("total", .Total), ("available", .Available),
   ("free", .Free)]

/-- Kebab-case value names clap derives for `SwapQuery`. -/
def SwapQuery.variants : List (String × SwapQuery) :=
  [("usage", .Usage), ("total", .Total), ("available", .Available)]

/-- Kebab-case value names clap derives for `DriveQuery`. -/
def DriveQuery.variants : List (String × DriveQuery) :=
  [("usage", .Usage), ("fs", .Fs), ("is-removable", .IsRemovable),
   ("kind", .Kind), ("mount-point", .MountPoint), ("total", .Total),
   ("available", .Available)]

/-- Kebab-case value names clap derives for `SensorQuery`. -/
def SensorQuery.variants : List (String × SensorQuery) :=
  [("critical-temp", .CriticalTemp), ("max-temp", .MaxTemp),
   ("temperature", .Temperature)]

/-- Kebab-case value names clap derives for `NetworkQuery`. -/
def NetworkQuery.variants : List (String × NetworkQuery) :=
  [("mac-address", .MacAddress), ("total-incoming-errors", .TotalIncomingErrors),
   ("total-outcoming-errors", .TotalOutcomingErrors),
   ("total-received-data", .TotalReceivedData),
   ("total-transmitted-data", .TotalTransmittedData),
   ("total-received-packets", .TotalReceivedPackets),
   ("total-transmitted-packets", .TotalTransmittedPackets)]

/-- Errors of the modelled core. The first three are the `anyhow` errors the
code constructs (`invalid <cat> query <tok>`, `this command does not take
any arguments`, `<cat> <name> not found`); the last three model panics. -/
inductive Err where
  | invalidQuery (category token : String)
  | noArgs
  | notFound (category name : String)
  | subOverflow
  | unwrapFailed
  | unreachableArm
deriving DecidableEq, Repr

/-- One arm of `Query::from_str`: the shared
`Enum::from_str(s, true).map_err(|_| anyhow!("invalid {cat} query {s}"))?`
pattern — wrap a successful enum parse into the `Query` constructor `F`, or
report `invalid <category> query <token>`. -/
def queryArm {α : Type} (F : α → Query) (category s : String) (r : Option α) :
    Except Err Query :=
  match r with
  | some q => .ok (F q)
  | none => .error (.invalidQuery category s)

/-- Query::from_str from `query.rs`: parse a token against the category of
the given CLI command; the catch-all arm (the `List*` commands) bails with
`this command does not take any arguments`. -/
def Query.from_str (cmd : CliCommand) (s : String) : Except Err Query :=
  match cmd with
  | .Os _ => queryArm Query.Os "os" s (variantFromStr OsQuery.variants s)
  | .Cpu _ _ => queryArm Query.Cpu "cpu" s (variantFromStr CpuQuery.variants s)
  | .Memory _ => queryArm Query.Memory "memory" s (variantFromStr MemoryQuery.variants s)
  | .Swap _ => queryArm Query.Swap "swap" s (variantFromStr SwapQuery.variants s)
  | .Drive _ _ => queryArm Query.Drive "drive" s (variantFromStr DriveQuery.variants s)
  | .Sensor _ _ => queryArm Query.Sensor "sensor" s (variantFromStr SensorQuery.variants s)
  | .Network _ _ => queryArm Query.Network "network" s (variantFromStr NetworkQuery.variants s)
  | _ => .error .noArgs

/-- Application::refresh_cpus from `app.rs`: the two-phase CPU refresh
(refresh, sleep `MINIMUM_CPU_UPDATE_INTERVAL`, refresh again); its effect
on the model is recording the two `refresh_cpu` calls. -/
def refresh_cpus (st : AppState) : AppState :=
  { st with cpu_refreshes := st.cpu_refreshes + 2 }

/-- System::refresh_memory as called by `command_from_cli`; records one
`refresh_memory` call. -/
def refresh_memory (st : AppState) : AppState :=
  { st with mem_refreshes := st.mem_refreshes + 1 }

/-- A single `sys.refresh_cpu()` call (used by `ListCpusCommand::exec`). -/
def refresh_cpu_once (st : AppState) : AppState :=
  { st with cpu_refreshes := st.cpu_refreshes + 1 }

/-- The bound command object of `cmd.rs` (the `Box<dyn Command>` built by
`command_from_cli`): the category together with the entity captured at bind
time for the entity-scoped commands. -/
inductive Cmd where
  | os
  | cpu (cpu : CpuInfo)
  | memory
  | swap
  | drive (drive : DriveInfo)
  | sensor (sensor : SensorInfo)
  | network (network : NetworkInfo)
  | listCpus
  | listSensors
  | listNetworks
deriving DecidableEq, Repr

/-- OsCommand::exec body for an `OsQuery` (from `cmd.rs`); `TotalCpuUsage`
performs the two-phase refresh as a side effect. -/
def execOsQuery (st : AppState) (q : OsQuery) : String × AppState :=
  match q with
  | .BootTime => (toString st.sys.boot_time, st)
  | .LoadAverage1m => (st.sys.load_avg_one, st)
  | .LoadAverage5m => (st.sys.load_avg_five, st)
  | .LoadAverage15m => (st.sys.load_avg_fifteen, st)
  | .Name => (st.sys.name.getD "", st)
  | .KernelVersion => (st.sys.kernel_version.getD "", st)
  | .Version => (st.sys.os_version.getD "", st)
  | .LongVersion => (st.sys.long_os_version.getD "", st)
  | .ReleaseId => (st.sys.distribution_id, st)
  | .HostName => (st.sys.host_name.getD "", st)
  | .PhysicalCoreCount => ((st.sys.physical_core_count.map toString).getD "", st)
  | .TotalCpuUsage =>
    let st' := refresh_cpus st
    (st'.sys.global_cpu_usage, st')
  | .CpuArch => (st.sys.cpu_arch.getD "", st)

/-- CpuCommand::exec body for a `CpuQuery` (from `cmd.rs`). -/
def execCpuQuery (cpu : CpuInfo) (q : CpuQuery) : String :=
  match q with
  | .Usage => cpu.cpu_usage
  | .Frequency => toString cpu.frequency
  | .Brand => cpu.brand
  | .VendorId => cpu.vendor_id

/-- MemoryCommand::exec body for a `MemoryQuery` (from `cmd.rs`), with the
`DataValue` pipeline at its `Bytes` instantiation. -/
def execMemoryQuery (st : AppState) (q : MemoryQuery) : String :=
  match q with
  | .Usage => toString st.sys.used_memory
  | .Total => toString st.sys.total_memory
  | .Available => toString st.sys.available_memory
  | .Free => toString st.sys.free_memory

/-- SwapCommand::exec body for a `SwapQuery` (from `cmd.rs`); note
`Available` reads `free_swap`. -/
def execSwapQuery (st : AppState) (q : SwapQuery) : String :=
  match q with
  | .Usage => toString st.sys.used_swap
  | .Total => toString st.sys.total_swap
  | .Available => toString st.sys.free_swap

/-- DriveCommand::exec dispatch on a `DriveQuery` given the used space
already computed (from `cmd.rs`). -/
def execDriveQuery (d : DriveInfo) (used_space : Nat) (q : DriveQuery) : String :=
  match q with
  | .Usage => toString used_space
  | .Fs => d.file_system
  | .IsRemovable => if d.is_removable then "1" else "0"
  | .Kind => d.kind
  | .MountPoint => d.mount_point
  | .Total => toString d.total_space
  | .Available => toString d.available_space

/-- SensorCommand::exec body for a `SensorQuery` (from `cmd.rs`). -/
def execSensorQuery (s : SensorInfo) (q : SensorQuery) : String :=
  match q with
  | .CriticalTemp => s.critical.getD ""
  | .MaxTemp => s.max
  | .Temperature => s.temperature

/-- NetworkCommand::exec body for a `NetworkQuery` (from `cmd.rs`). -/
def execNetworkQuery (n : NetworkInfo) (q : NetworkQuery) : String :=
  match q with
  | .MacAddress => n.mac_address
  | .TotalIncomingErrors => toString n.total_errors_on_received
  | .TotalOutcomingErrors => toString n.total_errors_on_transmitted
  | .TotalReceivedData => toString n.total_received
  | .TotalTransmittedData => toString n.total_transmitted
  | .TotalReceivedPackets => toString n.total_packets_received
  | .TotalTransmittedPackets => toString n.total_packets_transmitted

/-- Command::exec from `cmd.rs`. Each non-list implementation first returns
`[]` on `Query::None`, then (for `DriveCommand`) computes
`total_space - avail_space` in `u64` before dispatching — the checked
subtraction is the `subOverflow` panic — and finally matches the query,
where a query of a foreign category hits `unreachable!()`. The list
commands ignore the query and enumerate entity names. -/
def Cmd.exec (c : Cmd) (st : AppState) (q : Query) : Except Err (List String × AppState) :=
  match c with
  | .os =>
    match q with
    | .None => .ok ([], st)
    | .Os oq =>
      let (s, st') := execOsQuery st oq
      .ok ([s], st')
    | _ => .error .unreachableArm
  | .cpu cpuInfo =>
    match q with
    | .None => .ok ([], st)
    | .Cpu cq => .ok ([execCpuQuery cpuInfo cq], st)
    | _ => .error .unreachableArm
  | .memory =>
    match q with
    | .None => .ok ([], st)
    | .Memory mq => .ok ([execMemoryQuery st mq], st)
    | _ => .error .unreachableArm
  | .swap =>
    match q with
    | .None => .ok ([], st)
    | .Swap sq => .ok ([execSwapQuery st sq], st)
    | _ => .error .unreachableArm
  | .drive d =>
    match q with
    | .None => .ok ([], st)
    | q =>
      if d.available_space ≤ d.total_space then
        match q with
        | .Drive dq => .ok ([execDriveQuery d (d.total_space - d.available_space) dq], st)
        | _ => .error .unreachableArm
      else .error .subOverflow
  | .sensor s =>
    match q with
    | .None => .ok ([], st)
    | .Sensor sq => .ok ([execSensorQuery s sq], st)
    | _ => .error .unreachableArm
  | .network n =>
    match q with
    | .None => .ok ([], st)
    | .Network nq => .ok ([execNetworkQuery n nq], st)
    | _ => .error .unreachableArm
  | .listCpus =>
    let st' := refresh_cpu_once st
    .ok (st'.cpus.map (·.name), st')
  | .listSensors => .ok (st.sensors.map (·.label), st)
  | .listNetworks => .ok (st.networks.map (·.name), st)

/-- Application::command_from_cli from `app.rs`: bind the CLI command to a
command object, resolving the named entity for the entity-scoped
categories (two-phase CPU refresh before resolving a CPU; memory refresh
for Memory/Swap), and tag the CLI-supplied field list into `Query` values. -/
def command_from_cli (st : AppState) (cli_cmd : CliCommand) :
    Except Err (Cmd × List Query × AppState) :=
  match cli_cmd with
  | .Os queries => .ok (.os, queries.map Query.Os, st)
  | .Cpu name queries =>
    let st' := refresh_cpus st
    match st'.cpus.find? (fun c => c.name == name) with
    | some c => .ok (.cpu c, queries.map Query.Cpu, st')
    | none => .error (.notFound "cpu" name)
  | .Memory queries => .ok (.memory, queries.map Query.Memory, refresh_memory st)
  | .Swap queries => .ok (.swap, queries.map Query.Swap, refresh_memory st)
  | .Drive name queries =>
    match st.drives.find? (fun d => d.name == name) with
    | some d => .ok (.drive d, queries.map Query.Drive, st)
    | none => .error (.notFound "drive" name)
  | .Sensor name queries =>
    match st.sensors.find? (fun s => s.label == name) with
    | some s => .ok (.sensor s, queries.map Query.Sensor, st)
    | none => .error (.notFound "sensor" name)
  | .Network name queries =>
    match st.networks.find? (fun n => n.name == name) with
    | some n => .ok (.network n, queries.map Query.Network, st)
    | none => .error (.notFound "network" name)
  | .ListSensors => .ok (.listSensors, [], st)
  | .ListCpus => .ok (.listCpus, [], st)
  | .ListNetworks => .ok (.listNetworks, [], st)

/-- The `for q in queries { output.extend(cmd.exec(q)) }` loop of
`CliCommand::exec` (`cli.rs`), with the panic-carrying `Except` threaded. -/
def execAll (cmd : Cmd) : AppState → List Query → Except Err (List String × AppState)
  | st, [] => .ok ([], st)
  | st, q :: qs =>
    match cmd.exec st q with
    | .error e => .error e
    | .ok (out, st') =>
      match execAll cmd st' qs with
      | .error e => .error e
      | .ok (outs, st'') => .ok (out ++ outs, st'')

/-- CliCommand::exec from `cli.rs`: bind the command, then run every query
in order (or `Query::None` when no field was supplied). -/
def CliCommand.exec (cli : CliCommand) (st : AppState) :
    Except Err (List String × AppState) :=
  match command_from_cli st cli with
  | .error e => .error e
  | .ok (cmd, queries, st') =>
    if queries.isEmpty then cmd.exec st' Query.None
    else execAll cmd st' queries

/-- Whether the CLI command is one of the `List*` categories (which own no
fields). -/
def CliCommand.isList : CliCommand → Bool
  | .ListSensors | .ListCpus | .ListNetworks => true
  | _ => false

/-- One piece of a template as the regex `\%(.*?)\%` sees it: either a
character that participates in no match (copied verbatim by
`Regex::replace_all`) or a matched placeholder span with its captured
text. -/
inductive Seg where
  | lit (c : Char)
  | ph (s : String)
deriving DecidableEq, Repr

/-- Starting just after an opening `%`, find the matching close: the lazy
`(.*?)` takes the nearest following `%`, and `.` does not cross a newline,
so the attempt fails (`none`) at a `'\n'` or at the end of the input.
Returns the captured characters and the input after the closing `%`. -/
def grabCap : List Char → Option (List Char × List Char)
  | [] => none
  | c :: rest =>
    if c = '%' then some ([], rest)
    else if c = '\n' then none
    else
      match grabCap rest with
      | some (cap, r) => some (c :: cap, r)
      | none => none

/-- Fuelled scanner for the non-overlapping leftmost matches of
`\%(.*?)\%`: at a `%` try to close the span (`grabCap`); on failure the
regex engine moves on one position, leaving the `%` as plain text. The
fuel only serves structural recursion; `segScan` supplies enough. -/
def segScanAux : Nat → List Char → List Seg
  | 0, _ => []
  | _ + 1, [] => []
  | fuel + 1, c :: rest =>
    if c = '%' then
      match grabCap rest with
      | some (cap, rest') => .ph (String.mk cap) :: segScanAux fuel rest'
      | none => .lit '%' :: segScanAux fuel rest
    else .lit c :: segScanAux fuel rest

/-- Decompose a template into literal characters and placeholder spans,
exactly as one pass of `re.captures_iter` / `re.replace_all` with
`\%(.*?)\%` walks it. -/
def segScan (l : List Char) : List Seg := segScanAux l.length l

/-- Extract the captured text of a placeholder segment. -/
def Seg.cap? : Seg → Option String
  | .ph s => some s
  | .lit _ => none

/-- The `FmtContext = HashMap<String, String>` of `app.rs`, modelled as an
association list with first-match lookup and overwriting insert. -/
def FmtContext := List (String × String)
deriving DecidableEq, Repr

/-- HashMap::insert: replace any existing binding of the key. -/
def ctxInsert (ctx : FmtContext) (k v : String) : FmtContext :=
  (k, v) :: List.filter (fun p => p.1 != k) ctx

/-- HashMap::get. -/
def ctxGet (ctx : FmtContext) (k : String) : Option String :=
  (List.find? (fun p => p.1 == k) ctx).map (·.2)

/-- The `for s in &specs { queries.push(Query::from_str(cli_cmd, s)?) }`
loop of `create_fmt_ctx`: parse every specifier, aborting at the first
failure. -/
def parseSpecs (cmd : CliCommand) : List String → Except Err (List Query)
  | [] => .ok []
  | s :: rest =>
    match Query.from_str cmd s with
    | .error e => .error e
    | .ok q =>
      match parseSpecs cmd rest with
      | .error e => .error e
      | .ok qs => .ok (q :: qs)

/-- The `queries.into_iter().zip(specs).for_each(...)` loop of
`create_fmt_ctx`: execute each query on the bound command and insert
`spec ↦ exec(q).first().unwrap()` into the context. -/
def fmtLoop (cmd : Cmd) : AppState → FmtContext → List (Query × String) →
    Except Err (FmtContext × AppState)
  | st, ctx, [] => .ok (ctx, st)
  | st, ctx, (q, s) :: rest =>
    match cmd.exec st q with
    | .error e => .error e
    | .ok (out, st') =>
      match out.head? with
      | none => .error .unwrapFailed
      | some v => fmtLoop cmd st' (ctxInsert ctx s v) rest

/-- Application::create_fmt_ctx from `app.rs`: seed the empty specifier
with `"%"`, drop empty specifiers, parse the rest into queries, bind the
command, then run each query and record its first output. -/
def create_fmt_ctx (st : AppState) (cli_cmd : CliCommand) (specs : List String) :
    Except Err (FmtContext × AppState) :=
  let ctx : FmtContext := ctxInsert [] "" "%"
  let specs := specs.filter (fun s => !s.isEmpty)
  match parseSpecs cli_cmd specs with
  | .error e => .error e
  | .ok queries =>
    match command_from_cli st cli_cmd with
    | .error e => .error e
    | .ok (cmd, _, st') => fmtLoop cmd st' ctx (queries.zip specs)

/-- The `re.replace_all(fmt, |caps| fmt_ctx.get(&caps[1]).unwrap())` pass:
copy literal characters, substitute each placeholder span by its context
entry, panic (`none`) if the entry is missing. -/
def replaceSegs (ctx : FmtContext) : List Seg → Option (List Char)
  | [] => some []
  | .lit c :: rest => (replaceSegs ctx rest).map (fun r => c :: r)
  | .ph s :: rest =>
    match ctxGet ctx s with
    | none => none
    | some v => (replaceSegs ctx rest).map (fun r => v.data ++ r)

/-- Application::format_string from `app.rs`: collect the captures of
`\%(.*?)\%`, build the format context, then substitute every match. -/
def format_string (st : AppState) (cmd : CliCommand) (fmt : String) :
    Except Err (String × AppState) :=
  let segs := segScan fmt.data
  let specs := segs.filterMap Seg.cap?
  match create_fmt_ctx st cmd specs with
  | .error e => .error e
  | .ok (ctx, st') =>
    match replaceSegs ctx segs with
    | none => .error .unwrapFailed
    | some out => .ok (String.mk out, st')

/-- Field-name table of a CLI command's category: the possible-value names
of its query enum (empty for the `List*` categories, which own no fields). -/
def fieldNames : CliCommand → List String
  | .Os _ => OsQuery.variants.map Prod.fst
  | .Cpu _ _ => CpuQuery.variants.map Prod.fst
  | .Memory _ => MemoryQuery.variants.map Prod.fst
  | .Swap _ => SwapQuery.variants.map Prod.fst
  | .Drive _ _ => DriveQuery.variants.map Prod.fst
  | .Sensor _ _ => SensorQuery.variants.map Prod.fst
  | .Network _ _ => NetworkQuery.variants.map Prod.fst
  | .ListSensors | .ListCpus | .ListNetworks => []

/-- A concrete `System` snapshot used as test input. -/
def sys0 : SysInfo := {
  boot_time := 111, load_avg_one := "0.10", load_avg_five := "0.20",
  load_avg_fifteen := "0.30", name := some "Linux",
  kernel_version := some "6.1", os_version := some "12",
  long_os_version := some "Debian 12", distribution_id := "debian",
  host_name := some "box", physical_core_count := some 4,
  global_cpu_usage := "3.14", cpu_arch := some "x86_64",
  used_memory := 160, total_memory := 16000000000, available_memory := 80,
  free_memory := 70, used_swap := 5, total_swap := 10, free_swap := 5 }

/-- A concrete drive on which `available_space > total_space`, the input
that overflows the `u64` used-space subtraction of `DriveCommand::exec`. -/
def badDrive : DriveInfo := {
  name := "sdx1", file_system := "ext4", is_removable := false,
  kind := "SSD", mount_point := "/", total_space := 0, available_space := 1 }

/-- A concrete drive satisfying `available_space <= total_space`. -/
def goodDrive : DriveInfo := {
  name := "sda1", file_system := "ext4", is_removable := false,
  kind := "SSD", mount_point := "/", total_space := 100,
  available_space := 40 }

/-- A concrete application state used as test input. -/
def st0 : AppState := {
  sys := sys0,
  cpus := [{ name := "cpu0", cpu_usage := "7.77", frequency := 2400,
             brand := "ACME", vendor_id := "GenuineACME" }],
  drives := [goodDrive],
  sensors := [{ label := "coretemp", critical := some "95.00", max := "80.00",
                temperature := "42.00" }],
  networks := [{ name := "eth0", mac_address := "aa:bb",
                 total_errors_on_received := 0,
                 total_errors_on_transmitted := 1, total_received := 1000,
                 total_transmitted := 2000, total_packets_received := 10,
                 total_packets_transmitted := 20 }] }

/-- A state whose drive list contains only `badDrive`. -/
def stBad : AppState := { st0 with drives := [badDrive] }

/-- A `System` snapshot on which every optional reading is unavailable. -/
def sysNone : SysInfo := { sys0 with
  name := none, kernel_version := none, os_version := none,
  long_os_version := none, host_name := none, physical_core_count := none,
  cpu_arch := none }

/-- A sensor with no critical-temperature threshold. -/
def sensorNoCrit : SensorInfo :=
  { label := "acpitz", critical := none, max := "70.00", temperature := "33.00" }

/-- A state on which every optional reading is unavailable. -/
def stNone : AppState := { st0 with sys := sysNone, sensors := [sensorNoCrit] }

theorem find?_key_filter (ctx : List (String × String)) (k k' : String) (h : k' ≠ k) :
    List.find? (fun p => p.1 == k') (List.filter (fun p => p.1 != k) ctx)
      = List.find? (fun p => p.1 == k') ctx := by
  induction ctx with
  | nil => rfl
  | cons a t ih =>
    rw [List.filter_cons]
    cases hqa : (a.1 != k) with
    | false =>
      have hak : a.1 = k := bne_eq_false_iff_eq.mp hqa
      have hpa : (a.1 == k') = false := by
        rw [hak]
        exact beq_eq_false_iff_ne.mpr (fun hh => h hh.symm)
      simp only [Bool.false_eq_true, if_false, List.find?_cons, hpa]
      exact ih
    | true =>
      simp only [if_true, List.find?_cons]
      cases hpa : (a.1 == k') with
      | true => rfl
      | false => exact ih

theorem ctxGet_ctxInsert_ne (ctx : FmtContext) (k v k' : String) (h : k' ≠ k) :
    ctxGet (ctxInsert ctx k v) k' = ctxGet ctx k' := by
  have h2 : (k == k') = false := by
    simp only [beq_eq_false_iff_ne]
    exact fun hh => h hh.symm
  simp [ctxInsert, ctxGet, List.find?, h2, find?_key_filter ctx k k' h]

theorem fmtLoop_get_empty (cmd : Cmd) (ps : List (Query × String)) :
    ∀ st ctx ctx' st', (∀ p ∈ ps, p.2 ≠ "") →
      fmtLoop cmd st ctx ps = .ok (ctx', st') →
      ctxGet ctx' "" = ctxGet ctx "" := by
  induction ps with
  | nil =>
    intro st ctx ctx' st' _ hf
    simp only [fmtLoop] at hf
    cases hf
    rfl
  | cons p rest ih =>
    intro st ctx ctx' st' hne hf
    obtain ⟨q, s⟩ := p
    simp only [fmtLoop] at hf
    split at hf
    · exact absurd hf (by simp)
    · split at hf
      · exact absurd hf (by simp)
      · have hs : s ≠ "" := hne (q, s) (by simp)
        have := ih _ _ _ _ (fun p hp => hne p (List.mem_cons_of_mem _ hp)) hf
        rw [this, ctxGet_ctxInsert_ne _ _ _ _ (fun hh => hs hh.symm)]

theorem replaceSegs_isSome (ctx : FmtContext) (segs : List Seg)
    (h : ∀ s, Seg.ph s ∈ segs → (ctxGet ctx s).isSome) :
    (replaceSegs ctx segs).isSome := by
  induction segs with
  | nil => simp [replaceSegs]
  | cons sg rest ih =>
    have hrest := ih (fun s hs => h s (List.mem_cons_of_mem _ hs))
    cases sg with
    | lit c => simpa [replaceSegs] using hrest
    | ph s =>
      have hs := h s (by simp)
      obtain ⟨v, hv⟩ := Option.isSome_iff_exists.mp hs
      simpa [replaceSegs, hv] using hrest

theorem parseSpecs_error_of_mem (cmd : CliCommand) (l : List String) :
    ∀ s e, s ∈ l → Query.from_str cmd s = .error e →
      ∃ e', parseSpecs cmd l = .error e' := by
  induction l with
  | nil => intro s e hm; cases hm
  | cons a t ih =>
    intro s e hm he
    rcases List.mem_cons.mp hm with h1 | h1
    · subst h1
      exact ⟨e, by simp [parseSpecs, he]⟩
    · cases hq : Query.from_str cmd a with
      | error e2 => exact ⟨e2, by simp [parseSpecs, hq]⟩
      | ok q =>
        obtain ⟨e', he'⟩ := ih s e h1 he
        exact ⟨e', by simp [parseSpecs, hq, he']⟩

theorem execAll_length (cmd : Cmd) (qs : List Query) :
    ∀ st outs st'',
      (∀ q ∈ qs, ∀ st₂ out st₃, cmd.exec st₂ q = .ok (out, st₃) → out.length = 1) →
      execAll cmd st qs = .ok (outs, st'') → outs.length = qs.length := by
  induction qs with
  | nil =>
    intro st outs st'' _ hf
    simp only [execAll] at hf
    cases hf
    rfl
  | cons q t ih =>
    intro st outs st'' h1 hf
    simp only [execAll] at hf
    split at hf
    · exact absurd hf (by simp)
    · rename_i out st' hexec
      split at hf
      · exact absurd hf (by simp)
      · rename_i outs' st₃ hrec
        cases hf
        have l1 : out.length = 1 := h1 q (by simp) _ _ _ hexec
        have l2 := ih _ _ _ (fun q hq => h1 q (List.mem_cons_of_mem _ hq)) hrec
        simp only [List.length_append, l1, l2, List.length_cons]
        omega

theorem variantFromStr_isSome {α : Type} (vs : List (String × α)) (s : String) :
    (variantFromStr vs s).isSome ↔ asciiLower s ∈ vs.map Prod.fst := by
  unfold variantFromStr
  have hmap : (Option.map (fun x => x.2) (List.find? (fun v => asciiLower s == v.1) vs)).isSome
      = (List.find? (fun v => asciiLower s == v.1) vs).isSome := by
    cases List.find? (fun v => asciiLower s == v.1) vs <;> rfl
  rw [hmap, List.find?_isSome]
  constructor
  · rintro ⟨x, hx, hpx⟩
    exact List.mem_map.mpr ⟨x, hx, (beq_iff_eq.mp hpx).symm⟩
  · intro hm
    obtain ⟨x, hx, hfx⟩ := List.mem_map.mp hm
    exact ⟨x, hx, beq_iff_eq.mpr hfx.symm⟩

theorem variantFromStr_congr {α : Type} (vs : List (String × α)) (s₁ s₂ : String)
    (h : asciiLower s₁ = asciiLower s₂) :
    variantFromStr vs s₁ = variantFromStr vs s₂ := by
  unfold variantFromStr
  rw [h]

/-- C1 (counterexample): the claim that a template repeating the same
placeholder N times triggers exactly one field computation and at most one
provider refresh side effect per unique placeholder is false. On the OS
category, the template `%total-cpu-usage%%total-cpu-usage%` has one unique
placeholder, yet formatting executes the field twice and performs two
two-phase CPU refreshes (four `refresh_cpu` calls: `cpu_refreshes` goes
from 0 to 4), because `create_fmt_ctx` zips queries with all occurrences
and calls `cmd.exec` once per occurrence. -/
theorem format_string_dedup_counterexample :
    format_string st0 (CliCommand.Os []) "%total-cpu-usage%%total-cpu-usage%"
      = .ok ("3.143.14", { st0 with cpu_refreshes := 4 }) := by
  rfl

/-- C1 (amended): one formatting invocation binds the command once but
executes it once per non-empty placeholder occurrence, not once per unique
placeholder: a template repeating `total-cpu-usage` twice on the OS
category computes the field twice and performs the two-phase CPU refresh
twice. -/
theorem format_string_exec_per_occurrence (st : AppState) :
    format_string st (CliCommand.Os []) "%total-cpu-usage%%total-cpu-usage%"
      = .ok (st.sys.global_cpu_usage ++ st.sys.global_cpu_usage,
             refresh_cpus (refresh_cpus st)) := by
  have h : st.sys.global_cpu_usage ++ st.sys.global_cpu_usage
      = st.sys.global_cpu_usage ++ (st.sys.global_cpu_usage ++ "") := by
    rw [String.append_empty]
  rw [h]
  rfl

/-- C2 (counterexample): the claim that a template with an unmatched
trailing `%` fails with an unterminated-placeholder error is false: the
regex `\%(.*?)\%` simply finds no match in `"%usage"`, so formatting
succeeds and returns the template verbatim (no error of any kind is
raised). -/
theorem format_string_unterminated_counterexample :
    format_string st0 (CliCommand.Memory []) "%usage"
      = .ok ("%usage", refresh_memory st0) := by
  rfl

/-- C2 (amended): an unmatched trailing `%` is not a placeholder and not an
error: the span participates in no regex match, the characters are copied
verbatim, and formatting succeeds (for any state, `"%usage"` on the Memory
category formats to `"%usage"`). -/
theorem format_string_unterminated_verbatim (st : AppState) :
    format_string st (CliCommand.Memory []) "%usage"
      = .ok ("%usage", refresh_memory st) := by
  rfl

/-- C3 (counterexample): the claim that formatting any template against a
`List*` category fails with the unsupported-for-template error is false: a
template with no non-empty placeholder never reaches `Query::from_str`, so
`format_string` on `list-cpus` with the template `"hello"` succeeds and
returns the text unchanged. -/
theorem format_string_list_counterexample :
    format_string st0 CliCommand.ListCpus "hello" = .ok ("hello", st0) := by
  rfl

/-- C3 (amended): formatting a template against a `List*` category fails
with the `this command does not take any arguments` error exactly when the
template contains at least one non-empty placeholder; a template whose
placeholders are all empty (`%%`) formats successfully with the state
unchanged. -/
theorem format_string_list_noArgs_iff (st : AppState) (cli : CliCommand)
    (fmt : String) (h : cli.isList = true) :
    ((∃ s ∈ (segScan fmt.data).filterMap Seg.cap?, s ≠ "") →
        format_string st cli fmt = .error .noArgs) ∧
    ((∀ s ∈ (segScan fmt.data).filterMap Seg.cap?, s = "") →
        ∃ out, format_string st cli fmt = .ok (out, st)) := by
  have hfs : ∀ s, Query.from_str cli s = .error Err.noArgs := by
    intro s
    cases cli
    case ListSensors => rfl
    case ListCpus => rfl
    case ListNetworks => rfl
    all_goals simp [CliCommand.isList] at h
  have hcf : ∃ c, command_from_cli st cli = .ok (c, [], st) := by
    cases cli
    case ListSensors => exact ⟨_, rfl⟩
    case ListCpus => exact ⟨_, rfl⟩
    case ListNetworks => exact ⟨_, rfl⟩
    all_goals simp [CliCommand.isList] at h
  obtain ⟨c, hc⟩ := hcf
  constructor
  · rintro ⟨s, hs, hne⟩
    have hsf : s ∈ ((segScan fmt.data).filterMap Seg.cap?).filter
        (fun t => !t.isEmpty) := by
      refine List.mem_filter.mpr ⟨hs, ?_⟩
      cases hemp : s.isEmpty with
      | false => simp [hemp]
      | true => exact absurd ((String.isEmpty_iff s).mp hemp) hne
    cases hflt : ((segScan fmt.data).filterMap Seg.cap?).filter
        (fun t => !t.isEmpty) with
    | nil =>
      rw [hflt] at hsf
      cases hsf
    | cons a t =>
      have hpa : parseSpecs cli (a :: t) = .error Err.noArgs := by
        simp [parseSpecs, hfs a]
      simp only [format_string, create_fmt_ctx]
      rw [hflt, hpa]
  · intro hall
    have hflt : ((segScan fmt.data).filterMap Seg.cap?).filter
        (fun t => !t.isEmpty) = [] := by
      refine List.filter_eq_nil_iff.mpr (fun a ha => ?_)
      have ha0 : a = "" := hall a ha
      subst ha0
      decide
    have hrep : (replaceSegs (ctxInsert [] "" "%") (segScan fmt.data)).isSome := by
      apply replaceSegs_isSome
      intro s hseg
      have hmem : s ∈ (segScan fmt.data).filterMap Seg.cap? :=
        List.mem_filterMap.mpr ⟨Seg.ph s, hseg, rfl⟩
      rw [hall s hmem]
      rfl
    obtain ⟨out, hout⟩ := Option.isSome_iff_exists.mp hrep
    refine ⟨String.mk out, ?_⟩
    simp only [format_string, create_fmt_ctx]
    rw [hflt]
    simp only [parseSpecs]
    rw [hc]
    simp only [List.zip_nil_right, fmtLoop]
    rw [hout]

/-- C3 (witness): the amended theorem applied at a concrete list command,
non-empty template and state. -/
theorem format_string_list_noArgs_iff_witness :
    format_string st0 CliCommand.ListCpus "%name%" = .error .noArgs :=
  (format_string_list_noArgs_iff st0 CliCommand.ListCpus "%name%" rfl).1
    ⟨"name", by decide, by decide⟩

/-- C4: if any non-empty placeholder of the template fails to parse into a
Query of the command's category, the whole formatting operation aborts with
an error — the parse loop runs before the command is bound and before any
query is executed or substituted, so no output string is produced; in
particular `"%bogus%"` on the Memory category fails with the
`invalid memory query bogus` error (the spec's UnknownField). -/
theorem format_string_aborts_on_bad_spec :
    (∀ (st : AppState) (cli : CliCommand) (fmt s : String) (e : Err),
        s ∈ ((segScan fmt.data).filterMap Seg.cap?).filter (fun t => !t.isEmpty) →
        Query.from_str cli s = .error e →
        (format_string st cli fmt).isOk = false) ∧
    (∀ st : AppState,
        format_string st (CliCommand.Memory []) "%bogus%"
          = .error (.invalidQuery "memory" "bogus")) := by
  constructor
  · intro st cli fmt s e hmem hse
    obtain ⟨e', hpe⟩ := parseSpecs_error_of_mem cli _ s e hmem hse
    simp only [format_string, create_fmt_ctx]
    rw [hpe]
    rfl
  · intro st
    rfl

/-- C4 (witness): the abort theorem applied to the template `"%bogus%"` on
the Swap category at a concrete state. -/
theorem format_string_aborts_on_bad_spec_witness :
    (format_string st0 (CliCommand.Swap []) "%bogus%").isOk = false :=
  format_string_aborts_on_bad_spec.1 st0 (CliCommand.Swap []) "%bogus%" "bogus"
    (.invalidQuery "swap" "bogus") (by decide) (by rfl)

/-- C5: every format context built by `create_fmt_ctx` maps the empty
placeholder to the literal `"%"` (so every `%%` span substitutes to `%`,
regardless of the surrounding content: the loop only inserts non-empty
keys), and the claim's example template `"CPU: %usage%%% Mem: %total%"` on
the Memory category renders `"CPU: <usage>% Mem: <total>"` with the two
placeholders replaced by the rendered fields and `%%` by a single `%`. -/
theorem empty_placeholder_renders_percent :
    (∀ (st : AppState) (cli : CliCommand) (specs : List String)
        (ctx : FmtContext) (st' : AppState),
        create_fmt_ctx st cli specs = .ok (ctx, st') →
        ctxGet ctx "" = some "%") ∧
    (∀ st : AppState,
        format_string st (CliCommand.Memory []) "CPU: %usage%%% Mem: %total%"
          = .ok ("CPU: " ++ toString st.sys.used_memory ++ "% Mem: "
                 ++ toString st.sys.total_memory, refresh_memory st)) := by
  constructor
  · intro st cli specs ctx st' h
    simp only [create_fmt_ctx] at h
    split at h
    · exact absurd h (by simp)
    · split at h
      · exact absurd h (by simp)
      · rename_i queries hq cmdr cmd rest st₂ hcf
        have hget := fmtLoop_get_empty cmd _ _ _ _ _ ?_ h
        · rw [hget]
          rfl
        · intro p hp
          have hp2 := (List.of_mem_zip hp).2
          have := List.mem_filter.mp hp2
          intro hpe
          rw [hpe] at this
          exact absurd this.2 (by decide)
  · intro st
    have key : ∀ u t : String,
        "CPU: " ++ u ++ "% Mem: " ++ t
          = String.mk ("CPU: ".data ++ (u.data ++ ("% Mem: ".data ++ (t.data ++ [])))) := by
      intro u t
      apply String.ext
      simp [String.data_append, List.append_assoc]
    rw [key]
    rfl

/-- C5 (witness): the context built for `["usage"]` on the Memory category
at a concrete state maps the empty placeholder to `"%"`. -/
theorem empty_placeholder_renders_percent_witness :
    ctxGet [("usage", "160"), ("", "%")] "" = some "%" :=
  empty_placeholder_renders_percent.1 st0 (CliCommand.Memory []) ["usage"]
    ([("usage", "160"), ("", "%")] : FmtContext) (refresh_memory st0) (by rfl)

/-- Congruence of `queryArm` in the token: a successful parse depends only
on the looked-up variant, not on the token spelling kept for the error
message. -/
theorem queryArm_congr {α : Type} (F : α → Query) (c s₁ s₂ : String)
    (r₁ r₂ : Option α) (q : Query) (h : r₂ = r₁)
    (hok : queryArm F c s₁ r₁ = .ok q) : queryArm F c s₂ r₂ = .ok q := by
  subst h
  cases r₂ with
  | some x => exact hok
  | none => simp [queryArm] at hok

/-- A `queryArm` parse succeeds exactly when the variant lookup succeeded. -/
theorem queryArm_exists {α : Type} (F : α → Query) (c s : String)
    (r : Option α) : (∃ q, queryArm F c s r = .ok q) ↔ r.isSome = true := by
  cases r <;> simp [queryArm]

/-- C6: parsing a token into a Query is ASCII-case-insensitive — tokens
equal up to case parse to the same field — and a token parses successfully
exactly when its case-folded form is one of the category's field names
(for the `List*` categories the field-name set is empty and parsing always
fails). -/
theorem query_from_str_case_insensitive :
    (∀ (cli : CliCommand) (s₁ s₂ : String) (q : Query),
        asciiLower s₁ = asciiLower s₂ →
        Query.from_str cli s₁ = .ok q → Query.from_str cli s₂ = .ok q) ∧
    (∀ (cli : CliCommand) (s : String),
        (∃ q, Query.from_str cli s = .ok q) ↔ asciiLower s ∈ fieldNames cli) := by
  constructor
  · intro cli s₁ s₂ q h hok
    have hcg : ∀ {α : Type} (vs : List (String × α)),
        variantFromStr vs s₂ = variantFromStr vs s₁ :=
      fun vs => (variantFromStr_congr vs s₁ s₂ h).symm
    cases cli <;>
      simp only [Query.from_str] at hok ⊢ <;>
      first
        | exact queryArm_congr _ _ s₁ s₂ _ _ q (hcg _) hok
        | exact hok
  · intro cli s
    cases cli <;>
      simp only [Query.from_str, fieldNames] <;>
      first
        | rw [queryArm_exists, variantFromStr_isSome]
        | simp

/-- C6 (witness): the case-insensitivity theorem applied at concrete
tokens: `"usage"` and `"USAGE"` parse to the same Memory field. -/
theorem query_from_str_case_insensitive_witness :
    Query.from_str (CliCommand.Memory []) "USAGE" = .ok (.Memory .Usage) :=
  query_from_str_case_insensitive.1 (CliCommand.Memory []) "usage" "USAGE"
    (.Memory .Usage) (by decide) (by rfl)

/-- C8: every field whose underlying reading is unavailable on the host —
OS name, kernel version, OS version, long OS version, host name, CPU
architecture, physical core count, and a sensor's critical temperature
with no defined threshold — executes successfully and renders the empty
string (`unwrap_or_default`) instead of failing. -/
theorem unavailable_fields_render_empty :
    (∀ st : AppState, st.sys.name = none →
        Cmd.exec .os st (.Os .Name) = .ok ([""], st)) ∧
    (∀ st : AppState, st.sys.kernel_version = none →
        Cmd.exec .os st (.Os .KernelVersion) = .ok ([""], st)) ∧
    (∀ st : AppState, st.sys.os_version = none →
        Cmd.exec .os st (.Os .Version) = .ok ([""], st)) ∧
    (∀ st : AppState, st.sys.long_os_version = none →
        Cmd.exec .os st (.Os .LongVersion) = .ok ([""], st)) ∧
    (∀ st : AppState, st.sys.host_name = none →
        Cmd.exec .os st (.Os .HostName) = .ok ([""], st)) ∧
    (∀ st : AppState, st.sys.cpu_arch = none →
        Cmd.exec .os st (.Os .CpuArch) = .ok ([""], st)) ∧
    (∀ st : AppState, st.sys.physical_core_count = none →
        Cmd.exec .os st (.Os .PhysicalCoreCount) = .ok ([""], st)) ∧
    (∀ (sen : SensorInfo) (st : AppState), sen.critical = none →
        Cmd.exec (.sensor sen) st (.Sensor .CriticalTemp) = .ok ([""], st)) := by
  refine ⟨?_, ?_, ?_, ?_, ?_, ?_, ?_, ?_⟩ <;>
    first
      | (intro st h; simp [Cmd.exec, execOsQuery, h])
      | (intro sen st h; simp [Cmd.exec, execSensorQuery, h])

/-- C8 (witness): the unavailable-field theorem applied at a state where
every optional reading is absent. -/
theorem unavailable_fields_render_empty_witness :
    Cmd.exec .os stNone (.Os .Name) = .ok ([""], stNone) ∧
    Cmd.exec .os stNone (.Os .KernelVersion) = .ok ([""], stNone) ∧
    Cmd.exec .os stNone (.Os .Version) = .ok ([""], stNone) ∧
    Cmd.exec .os stNone (.Os .LongVersion) = .ok ([""], stNone) ∧
    Cmd.exec .os stNone (.Os .HostName) = .ok ([""], stNone) ∧
    Cmd.exec .os stNone (.Os .CpuArch) = .ok ([""], stNone) ∧
    Cmd.exec .os stNone (.Os .PhysicalCoreCount) = .ok ([""], stNone) ∧
    Cmd.exec (.sensor sensorNoCrit) stNone (.Sensor .CriticalTemp)
      = .ok ([""], stNone) :=
  ⟨unavailable_fields_render_empty.1 stNone rfl,
   unavailable_fields_render_empty.2.1 stNone rfl,
   unavailable_fields_render_empty.2.2.1 stNone rfl,
   unavailable_fields_render_empty.2.2.2.1 stNone rfl,
   unavailable_fields_render_empty.2.2.2.2.1 stNone rfl,
   unavailable_fields_render_empty.2.2.2.2.2.1 stNone rfl,
   unavailable_fields_render_empty.2.2.2.2.2.2.1 stNone rfl,
   unavailable_fields_render_empty.2.2.2.2.2.2.2 sensorNoCrit stNone rfl⟩

/-- C10: `DriveCommand::exec` computes `total_space - avail_space` in `u64`
before dispatching on the query, so execution of any drive query returns
normally exactly when `available_space <= total_space` (otherwise the
checked subtraction panics, even for queries like `fs` that do not use the
used space); under that precondition the `usage` field renders exactly the
byte count `total_space - available_space`. -/
theorem drive_used_space_precondition (d : DriveInfo) (st : AppState) :
    (∀ dq : DriveQuery,
        (Cmd.exec (.drive d) st (.Drive dq)).isOk = true ↔
          d.available_space ≤ d.total_space) ∧
    (d.available_space ≤ d.total_space →
        Cmd.exec (.drive d) st (.Drive .Usage)
          = .ok ([toString (d.total_space - d.available_space)], st)) := by
  constructor
  · intro dq
    by_cases hle : d.available_space ≤ d.total_space <;>
      simp [Cmd.exec, hle, Except.isOk, Except.toBool]
  · intro hle
    simp [Cmd.exec, hle, execDriveQuery]

/-- C10 (witness): the precondition theorem applied at a concrete drive
with 100 total and 40 available bytes: `usage` renders `"60"`. -/
theorem drive_used_space_precondition_witness :
    Cmd.exec (.drive goodDrive) st0 (.Drive .Usage) = .ok (["60"], st0) :=
  (drive_used_space_precondition goodDrive st0).2 (by decide)

/-- C7: for every non-List category with a successfully resolved target,
`CliCommand::exec` produces exactly one output string per input field
query, in input order (output length equals query-list length); in
particular Memory with `["total", "available"]` returns the two rendered
values position-matched to the input order. -/
theorem cli_exec_one_output_per_query :
    (∀ (cli : CliCommand) (st : AppState) (cmd : Cmd) (queries : List Query)
        (st' : AppState) (outs : List String) (st'' : AppState),
        cli.isList = false →
        command_from_cli st cli = .ok (cmd, queries, st') →
        CliCommand.exec cli st = .ok (outs, st'') →
        outs.length = queries.length) ∧
    (∀ st : AppState,
        CliCommand.exec (.Memory [MemoryQuery.Total, MemoryQuery.Available]) st
          = .ok ([toString st.sys.total_memory, toString st.sys.available_memory],
                 refresh_memory st)) := by
  constructor
  · intro cli st cmd queries st' outs st'' hnl hcf hex
    simp only [CliCommand.exec] at hex
    rw [hcf] at hex
    replace hex : (if queries.isEmpty = true then cmd.exec st' Query.None
        else execAll cmd st' queries) = Except.ok (outs, st'') := hex
    by_cases hq : queries.isEmpty
    · rw [if_pos hq] at hex
      rw [List.isEmpty_iff.mp hq]
      cases cli <;> simp only [command_from_cli] at hcf ⊢ <;>
        first
          | exact absurd hnl (by decide)
          | (cases hcf
             simp only [Cmd.exec] at hex
             cases hex
             rfl)
          | (split at hcf
             · cases hcf
               simp only [Cmd.exec] at hex
               cases hex
               rfl
             · exact absurd hcf (by simp))
    · rw [if_neg hq] at hex
      refine execAll_length cmd queries _ _ _ ?_ hex
      intro q hqm st₂ out st₃ hexe
      cases cli
      -- Os
      · simp only [command_from_cli] at hcf
        cases hcf
        obtain ⟨oq, _, rfl⟩ := List.mem_map.mp hqm
        simp only [Cmd.exec] at hexe
        rcases hp : execOsQuery st₂ oq with ⟨s, st₄⟩
        rw [hp] at hexe
        cases hexe
        rfl
      -- Cpu
      · simp only [command_from_cli] at hcf
        split at hcf
        · cases hcf
          obtain ⟨cq, _, rfl⟩ := List.mem_map.mp hqm
          simp only [Cmd.exec] at hexe
          cases hexe
          rfl
        · exact absurd hcf (by simp)
      -- Memory
      · simp only [command_from_cli] at hcf
        cases hcf
        obtain ⟨mq, _, rfl⟩ := List.mem_map.mp hqm
        simp only [Cmd.exec] at hexe
        cases hexe
        rfl
      -- Swap
      · simp only [command_from_cli] at hcf
        cases hcf
        obtain ⟨sq, _, rfl⟩ := List.mem_map.mp hqm
        simp only [Cmd.exec] at hexe
        cases hexe
        rfl
      -- Drive
      · simp only [command_from_cli] at hcf
        split at hcf
        · cases hcf
          obtain ⟨dq, _, rfl⟩ := List.mem_map.mp hqm
          simp only [Cmd.exec] at hexe
          split at hexe
          · cases hexe
            rfl
          · exact absurd hexe (by simp)
        · exact absurd hcf (by simp)
      -- Sensor
      · simp only [command_from_cli] at hcf
        split at hcf
        · cases hcf
          obtain ⟨sq, _, rfl⟩ := List.mem_map.mp hqm
          simp only [Cmd.exec] at hexe
          cases hexe
          rfl
        · exact absurd hcf (by simp)
      -- Network
      · simp only [command_from_cli] at hcf
        split at hcf
        · cases hcf
          obtain ⟨nq, _, rfl⟩ := List.mem_map.mp hqm
          simp only [Cmd.exec] at hexe
          cases hexe
          rfl
        · exact absurd hcf (by simp)
      -- ListSensors
      · simp [CliCommand.isList] at hnl
      -- ListCpus
      · simp [CliCommand.isList] at hnl
      -- ListNetworks
      · simp [CliCommand.isList] at hnl
  · intro st
    rfl

/-- C7 (witness): one output per field on Memory `["total", "available"]`
at a concrete state, via the length part of the theorem. -/
theorem cli_exec_one_output_per_query_witness :
    (["16000000000", "80"] : List String).length
      = [Query.Memory MemoryQuery.Total, Query.Memory MemoryQuery.Available].length :=
  cli_exec_one_output_per_query.1
    (CliCommand.Memory [MemoryQuery.Total, MemoryQuery.Available]) st0
    Cmd.memory [Query.Memory MemoryQuery.Total, Query.Memory MemoryQuery.Available]
    (refresh_memory st0) ["16000000000", "80"] (refresh_memory st0)
    rfl rfl rfl

/-- C9 (counterexample): the claim that whenever `Query::from_str(cmd, s)`
succeeds, executing the query on the command built from the same `cmd`
returns exactly one string (never panicking) is false for the Drive
category: on a drive with `available_space > total_space`, the used-space
subtraction that `DriveCommand::exec` performs before dispatching panics
(checked `u64` underflow), even for the `fs` field — execution ends in the
`subOverflow` panic instead of returning a one-element list. -/
theorem exec_singleton_counterexample :
    Query.from_str (CliCommand.Drive "sdx1" []) "fs" = .ok (.Drive .Fs) ∧
    command_from_cli stBad (CliCommand.Drive "sdx1" [])
      = .ok (.drive badDrive, [], stBad) ∧
    Cmd.exec (.drive badDrive) stBad (.Drive .Fs) = .error .subOverflow :=
  ⟨rfl, rfl, rfl⟩

/-- C9 (amended): if `Query::from_str(cmd, s)` succeeds and the command
object is built from the same `cmd`, then the `unreachable!()` arm of
`Command::exec` is never reached, and every normal return of `exec` on the
parsed query is a one-element list (so `.first().unwrap()` in
`create_fmt_ctx` cannot panic); moreover `exec` does return normally for
every non-Drive command, and for a Drive command whenever
`available_space <= total_space` (the used-space subtraction of C10 is the
single exception to the original claim). -/
theorem exec_singleton_amended (cli : CliCommand) (s : String) (q : Query)
    (st : AppState) (cmd : Cmd) (queries : List Query) (st' : AppState)
    (hfs : Query.from_str cli s = .ok q)
    (hcf : command_from_cli st cli = .ok (cmd, queries, st')) :
    (∀ st₂ : AppState, cmd.exec st₂ q ≠ .error .unreachableArm) ∧
    (∀ (st₂ : AppState) (outs : List String) (st₃ : AppState),
        cmd.exec st₂ q = .ok (outs, st₃) → outs.length = 1) ∧
    ((∀ d : DriveInfo, cmd ≠ .drive d) →
        ∃ v st₃, cmd.exec st' q = .ok ([v], st₃)) ∧
    (∀ d : DriveInfo, cmd = .drive d →
        d.available_space ≤ d.total_space →
        ∃ v st₃, cmd.exec st' q = .ok ([v], st₃)) := by
  cases cli
  -- Os
  · simp only [Query.from_str] at hfs
    rcases hv : variantFromStr OsQuery.variants s with _ | x <;> rw [hv] at hfs
    · simp [queryArm] at hfs
    · cases hfs
      simp only [command_from_cli] at hcf
      cases hcf
      refine ⟨?_, ?_, ?_, ?_⟩
      · intro st₂ hcontra
        simp only [Cmd.exec] at hcontra
        rcases hp : execOsQuery st₂ x with ⟨v, st₄⟩
        rw [hp] at hcontra
        cases hcontra
      · intro st₂ outs st₃ hok2
        simp only [Cmd.exec] at hok2
        rcases hp : execOsQuery st₂ x with ⟨v, st₄⟩
        rw [hp] at hok2
        cases hok2
        rfl
      · intro _
        rcases hp : execOsQuery st x with ⟨v, st₄⟩
        exact ⟨v, st₄, by simp [Cmd.exec, hp]⟩
      · intro d hd
        cases hd
  -- Cpu
  · simp only [Query.from_str] at hfs
    rcases hv : variantFromStr CpuQuery.variants s with _ | x <;> rw [hv] at hfs
    · simp [queryArm] at hfs
    · cases hfs
      simp only [command_from_cli] at hcf
      split at hcf
      · rename_i c0 hfind
        cases hcf
        refine ⟨?_, ?_, ?_, ?_⟩
        · intro st₂ hcontra
          simp only [Cmd.exec] at hcontra
          cases hcontra
        · intro st₂ outs st₃ hok2
          simp only [Cmd.exec] at hok2
          cases hok2
          rfl
        · intro _
          exact ⟨execCpuQuery c0 x, refresh_cpus st, rfl⟩
        · intro d hd
          cases hd
      · exact absurd hcf (by simp)
  -- Memory
  · simp only [Query.from_str] at hfs
    rcases hv : variantFromStr MemoryQuery.variants s with _ | x <;> rw [hv] at hfs
    · simp [queryArm] at hfs
    · cases hfs
      simp only [command_from_cli] at hcf
      cases hcf
      refine ⟨?_, ?_, ?_, ?_⟩
      · intro st₂ hcontra
        simp only [Cmd.exec] at hcontra
        cases hcontra
      · intro st₂ outs st₃ hok2
        simp only [Cmd.exec] at hok2
        cases hok2
        rfl
      · intro _
        exact ⟨execMemoryQuery (refresh_memory st) x, refresh_memory st, rfl⟩
      · intro d hd
        cases hd
  -- Swap
  · simp only [Query.from_str] at hfs
    rcases hv : variantFromStr SwapQuery.variants s with _ | x <;> rw [hv] at hfs
    · simp [queryArm] at hfs
    · cases hfs
      simp only [command_from_cli] at hcf
      cases hcf
      refine ⟨?_, ?_, ?_, ?_⟩
      · intro st₂ hcontra
        simp only [Cmd.exec] at hcontra
        cases hcontra
      · intro st₂ outs st₃ hok2
        simp only [Cmd.exec] at hok2
        cases hok2
        rfl
      · intro _
        exact ⟨execSwapQuery (refresh_memory st) x, refresh_memory st, rfl⟩
      · intro d hd
        cases hd
  -- Drive
  · simp only [Query.from_str] at hfs
    rcases hv : variantFromStr DriveQuery.variants s with _ | x <;> rw [hv] at hfs
    · simp [queryArm] at hfs
    · cases hfs
      simp only [command_from_cli] at hcf
      split at hcf
      · rename_i d0 hfind
        cases hcf
        refine ⟨?_, ?_, ?_, ?_⟩
        · intro st₂ hcontra
          simp only [Cmd.exec] at hcontra
          split at hcontra
          · cases hcontra
          · cases hcontra
        · intro st₂ outs st₃ hok2
          simp only [Cmd.exec] at hok2
          split at hok2
          · cases hok2
            rfl
          · cases hok2
        · intro hnd
          exact absurd rfl (hnd d0)
        · intro d hd hle
          cases hd
          exact ⟨execDriveQuery d0 (d0.total_space - d0.available_space) x, st,
                 by simp [Cmd.exec, hle]⟩
      · exact absurd hcf (by simp)
  -- Sensor
  · simp only [Query.from_str] at hfs
    rcases hv : variantFromStr SensorQuery.variants s with _ | x <;> rw [hv] at hfs
    · simp [queryArm] at hfs
    · cases hfs
      simp only [command_from_cli] at hcf
      split at hcf
      · rename_i s0 hfind
        cases hcf
        refine ⟨?_, ?_, ?_, ?_⟩
        · intro st₂ hcontra
          simp only [Cmd.exec] at hcontra
          cases hcontra
        · intro st₂ outs st₃ hok2
          simp only [Cmd.exec] at hok2
          cases hok2
          rfl
        · intro _
          exact ⟨execSensorQuery s0 x, st, rfl⟩
        · intro d hd
          cases hd
      · exact absurd hcf (by simp)
  -- Network
  · simp only [Query.from_str] at hfs
    rcases hv : variantFromStr NetworkQuery.variants s with _ | x <;> rw [hv] at hfs
    · simp [queryArm] at hfs
    · cases hfs
      simp only [command_from_cli] at hcf
      split at hcf
      · rename_i n0 hfind
        cases hcf
        refine ⟨?_, ?_, ?_, ?_⟩
        · intro st₂ hcontra
          simp only [Cmd.exec] at hcontra
          cases hcontra
        · intro st₂ outs st₃ hok2
          simp only [Cmd.exec] at hok2
          cases hok2
          rfl
        · intro _
          exact ⟨execNetworkQuery n0 x, st, rfl⟩
        · intro d hd
          cases hd
      · exact absurd hcf (by simp)
  -- ListSensors
  · simp only [Query.from_str] at hfs
    cases hfs
  -- ListCpus
  · simp only [Query.from_str] at hfs
    cases hfs
  -- ListNetworks
  · simp only [Query.from_str] at hfs
    cases hfs

/-- C9 (witness): the amended theorem applied on the Memory category at a
concrete state: the normal return of `exec` on the parsed `usage` query is
a one-element list. -/
theorem exec_singleton_amended_witness :
    (["160"] : List String).length = 1 :=
  (exec_singleton_amended (CliCommand.Memory []) "usage" (.Memory .Usage) st0
    .memory [] (refresh_memory st0) rfl rfl).2.1
    (refresh_memory st0) ["160"] (refresh_memory st0) rfl
